import Mathlib

/-!
Verification of the TFT Chrome extension detection path and data managers.

The JavaScript sources under src/content-scripts are shallowly embedded:
JavaScript numbers that hold pixel coordinates and counters are Nat,
fractional confidences are Rat, Math.round on a positive rational a/b is
round-half-up, and the nested for-loops become folds over explicit
position lists.  Fallible browser operations (fetch, canvas extraction)
are passed in as Except values and the catch blocks become matches.
-/

/-- Math.round of the nonnegative rational a / b (JavaScript rounds half up). -/
def jround (a b : Nat) : Nat := (2 * a + b) / (2 * b)

/-- Positions visited by the loop "for (p = start; p < stop; p += step)". -/
def stepPos (start stop step : Nat) : List Nat :=
  (List.range ((stop - start + step - 1) / step)).map (fun k => start + step * k)

/-- Math.abs of the difference of two JavaScript numbers that are Nats. -/
def natAbsDiff (a b : Nat) : Nat := max a b - min a b

/-- Search area rectangle, as built from the hardcoded fractional positions. -/
structure SearchArea where
  x : Nat
  y : Nat
  width : Nat
  height : Nat
deriving DecidableEq, Repr

/-- Parameter object handed to findRectangularRegions. -/
structure RectParams where
  minWidth : Nat
  maxWidth : Nat
  minHeight : Nat
  maxHeight : Nat
  threshold : ℚ
deriving DecidableEq, Repr

/-- Candidate rectangle produced by the region scanners. -/
structure Candidate where
  x : Nat
  y : Nat
  width : Nat
  height : Nat
  confidence : ℚ
deriving DecidableEq, Repr

/-- Element categories used by the detector ("augment", "champion", "shop", "gold"). -/
inductive ElemType where
  | augment
  | champion
  | shop
  | gold
deriving DecidableEq, Repr

/-- Detected element as pushed by the four detect functions. -/
structure TftElement where
  type : ElemType
  x : Nat
  y : Nat
  width : Nat
  height : Nat
  confidence : ℚ
  cost : Option Nat
  id : String
deriving DecidableEq, Repr

/-- SimpleCvProcessor.analyzeRegion: nested loops counting pixels whose
right-neighbor or bottom-neighbor luminance difference exceeds 30, then
confidence = min(edgeRatio * 2, 1). -/
def analyzeRegion (g : Nat → Nat) (width height x y w h : Nat) : ℚ :=
  let rows := stepPos y (min (y + h) (height - 1)) 1
  let cols := stepPos x (min (x + w) (width - 1)) 1
  let acc := rows.foldl (fun a ry =>
    cols.foldl (fun a2 rx =>
      ((if 30 < natAbsDiff (g (ry * width + rx)) (g (ry * width + rx + 1)) ∨
           30 < natAbsDiff (g (ry * width + rx)) (g ((ry + 1) * width + rx)) then
          a2.1 + 1 else a2.1), a2.2 + 1)) a) ((0 : Nat), (0 : Nat))
  let edgeRatio : ℚ := if 0 < acc.2 then (acc.1 : ℚ) / (acc.2 : ℚ) else 0
  min (edgeRatio * 2) 1

/-- SimpleCvProcessor.analyzeShopPattern: samples every 5 pixels, counts
right-neighbor luminance differences above 25, then
min(horizontalEdges / totalChecks * 1.5, 1), or 0 with no checks. -/
def analyzeShopPattern (g : Nat → Nat) (width height : Nat) (area : SearchArea) : ℚ :=
  let rows := stepPos area.y (min (area.y + area.height) (height - 1)) 5
  let cols := stepPos area.x (min (area.x + area.width) (width - 1)) 5
  let acc := rows.foldl (fun a y =>
    cols.foldl (fun a2 x =>
      ((if 25 < natAbsDiff (g (y * width + x)) (g (y * width + x + 1)) then
          a2.1 + 1 else a2.1), a2.2 + 1)) a) ((0 : Nat), (0 : Nat))
  if 0 < acc.2 then min ((acc.1 : ℚ) / (acc.2 : ℚ) * (3 / 2)) 1 else 0

/-- SimpleCvProcessor.findRectangularRegions: slide a minWidth × minHeight
window over the search area in steps of 10 and keep windows whose
analyzeRegion confidence exceeds the threshold. -/
def findRectangularRegions (g : Nat → Nat) (width height : Nat)
    (searchArea : SearchArea) (params : RectParams) : List Candidate :=
  (stepPos searchArea.y ((searchArea.y + searchArea.height) - params.minHeight) 10).flatMap
    (fun y =>
      (stepPos searchArea.x ((searchArea.x + searchArea.width) - params.minWidth) 10).filterMap
        (fun x =>
          let conf := analyzeRegion g width height x y params.minWidth params.minHeight
          if params.threshold < conf then
            some { x := x, y := y, width := params.minWidth, height := params.minHeight,
                   confidence := conf }
          else none))

/-- SimpleCvProcessor.findBrightRegions: slide a 20 × 20 window in steps of
10 and keep windows whose average luminance exceeds 200, with confidence
min(avg / 255, 1). -/
def findBrightRegions (g : Nat → Nat) (width height : Nat) (area : SearchArea) :
    List Candidate :=
  (stepPos area.y ((area.y + area.height) - 20) 10).flatMap (fun y =>
    (stepPos area.x ((area.x + area.width) - 20) 10).filterMap (fun x =>
      let rows := stepPos y (min (y + 20) height) 1
      let cols := stepPos x (min (x + 20) width) 1
      let acc := rows.foldl (fun a ry =>
        cols.foldl (fun a2 rx => (a2.1 + g (ry * width + rx), a2.2 + 1)) a)
        ((0 : Nat), (0 : Nat))
      let avgBrightness : ℚ := if 0 < acc.2 then (acc.1 : ℚ) / (acc.2 : ℚ) else 0
      if 200 < avgBrightness then
        some { x := x, y := y, width := 20, height := 20,
               confidence := min (avgBrightness / 255) 1 }
      else none))

/-- SimpleCvProcessor.estimateChampionCost: thresholds on the candidate confidence. -/
def estimateChampionCost (candidate : Candidate) : Nat :=
  if (9 : ℚ) / 10 < candidate.confidence then 5
  else if (8 : ℚ) / 10 < candidate.confidence then 4
  else if (7 : ℚ) / 10 < candidate.confidence then 3
  else if (6 : ℚ) / 10 < candidate.confidence then 2
  else 1

/-- SimpleCvProcessor.detectAugmentSlots: scan the hardcoded center-top area. -/
def detectAugmentSlots (g : Nat → Nat) (width height : Nat) : List TftElement :=
  let searchArea : SearchArea :=
    { x := jround (3 * width) 10, y := jround height 10,
      width := jround (2 * width) 5, height := jround height 5 }
  let candidates := findRectangularRegions g width height searchArea
    { minWidth := 80, maxWidth := 120, minHeight := 80, maxHeight := 120,
      threshold := 7 / 10 }
  candidates.enum.map (fun p =>
    { type := ElemType.augment, x := p.2.x, y := p.2.y, width := p.2.width,
      height := p.2.height, confidence := p.2.confidence, cost := none,
      id := "augment_" ++ toString p.1 })

/-- SimpleCvProcessor.detectChampionSlots: scan the hardcoded bottom shop band. -/
def detectChampionSlots (g : Nat → Nat) (width height : Nat) : List TftElement :=
  let searchArea : SearchArea :=
    { x := jround width 5, y := jround (7 * height) 10,
      width := jround (3 * width) 5, height := jround height 4 }
  let candidates := findRectangularRegions g width height searchArea
    { minWidth := 50, maxWidth := 80, minHeight := 50, maxHeight := 80,
      threshold := 6 / 10 }
  candidates.enum.map (fun p =>
    { type := ElemType.champion, x := p.2.x, y := p.2.y, width := p.2.width,
      height := p.2.height, confidence := p.2.confidence,
      cost := some (estimateChampionCost p.2),
      id := "champion_" ++ toString p.1 })

/-- SimpleCvProcessor.detectShopArea: one fixed area, emitted when the shop
pattern confidence exceeds 0.5. -/
def detectShopArea (g : Nat → Nat) (width height : Nat) : List TftElement :=
  let shopArea : SearchArea :=
    { x := jround (3 * width) 20, y := jround (3 * height) 4,
      width := jround (7 * width) 10, height := jround height 5 }
  let confidence := analyzeShopPattern g width height shopArea
  if (1 : ℚ) / 2 < confidence then
    [{ type := ElemType.shop, x := shopArea.x, y := shopArea.y,
       width := shopArea.width, height := shopArea.height,
       confidence := confidence, cost := none, id := "shop_area" }]
  else []

/-- SimpleCvProcessor.detectGoldIndicator: bright-region scan over the two
hardcoded corner areas. -/
def detectGoldIndicator (g : Nat → Nat) (width height : Nat) : List TftElement :=
  let searchAreas : List SearchArea :=
    [{ x := 0, y := 0, width := jround (3 * width) 10, height := jround height 5 },
     { x := 0, y := jround (4 * height) 5, width := jround (3 * width) 10,
       height := jround height 5 }]
  searchAreas.enum.flatMap (fun pa =>
    ((findBrightRegions g width height pa.2).enum.map (fun p =>
      { type := ElemType.gold, x := p.2.x, y := p.2.y, width := p.2.width,
        height := p.2.height, confidence := p.2.confidence, cost := none,
        id := "gold_" ++ toString pa.1 ++ "_" ++ toString p.1 })))

/-- SimpleCvProcessor.detectTftElements: concatenation of the four detectors. -/
def detectTftElements (g : Nat → Nat) (width height : Nat) : List TftElement :=
  detectAugmentSlots g width height ++ detectChampionSlots g width height ++
    detectShopArea g width height ++ detectGoldIndicator g width height

/-- Frame data as produced by extractVideoFrame, reduced to the grayscale
buffer the detectors consume. -/
structure FrameData where
  gray : Nat → Nat
  width : Nat
  height : Nat

/-- Mutable processor state touched by processFrame. -/
structure ProcState where
  isProcessing : Bool
  lastProcessTime : ℚ
deriving DecidableEq

/-- Result object returned by processFrame; timestamp is present only on
the successful path. -/
structure ProcResult where
  elements : List TftElement
  processingTime : ℚ
  timestamp : Option ℚ
deriving DecidableEq

/-- Empty result { elements: [], processingTime: 0 } returned on the guard
and failure paths. -/
def emptyProcResult : ProcResult :=
  { elements := [], processingTime := 0, timestamp := none }

/-- SimpleCvProcessor.extractVideoFrame: the try block is an Except value;
the catch branch logs and returns null. -/
def extractVideoFrame (raw : Except String FrameData) : Option FrameData :=
  match raw with
  | Except.ok f => some f
  | Except.error _ => none

/-- SimpleCvProcessor.processFrame as a state transition.  Inputs beyond
the state are the outcome of the canvas extraction, the elapsed time
(performance.now difference) and the wall-clock (Date.now).  The returned
Bool records whether detection ran on this tick. -/
def processFrame (s : ProcState) (raw : Except String FrameData)
    (elapsed now : ℚ) : ProcResult × ProcState × Bool :=
  if s.isProcessing then
    (emptyProcResult, s, false)
  else
    match extractVideoFrame raw with
    | none => (emptyProcResult, { s with isProcessing := false }, false)
    | some f =>
        let results := detectTftElements f.gray f.width f.height
        ({ elements := results, processingTime := elapsed, timestamp := some now },
         { isProcessing := false, lastProcessTime := elapsed }, true)

/-- Augment record as stored in the bundled augments JSON. -/
structure Augment where
  key : String
  title : String
  description : String
  tier : String
  searchText : String
  tierPriority : Int
  powerLevel : Int
deriving DecidableEq, Repr

/-- JavaScript Map.set: replace the value in place when the key is already
present, otherwise append the new binding. -/
def mapSet {α β : Type} [DecidableEq α] (m : List (α × β)) (k : α) (v : β) :
    List (α × β) :=
  match m with
  | [] => [(k, v)]
  | (k0, v0) :: rest =>
      if k0 = k then (k, v) :: rest else (k0, v0) :: mapSet rest k v

/-- JavaScript Map.get (also object property access), with the undefined
result mapped to none (the managers coerce undefined to null with "|| null"). -/
def mapGet {α β : Type} [DecidableEq α] (m : List (α × β)) (k : α) : Option β :=
  match m with
  | [] => none
  | (k0, v) :: rest => if k0 = k then some v else mapGet rest k

/-- AugmentsDataManager mutable state.  loadPromise caches the settled
value of the in-flight promise; fetchCount counts fetch calls issued. -/
structure AugmentsState where
  augmentsData : Option (List Augment)
  augmentMap : List (String × Augment)
  isLoaded : Bool
  loadPromise : Option Bool
  fetchCount : Nat
deriving DecidableEq

/-- AugmentsDataManager constructor state. -/
def initialAugmentsState : AugmentsState :=
  { augmentsData := none, augmentMap := [], isLoaded := false,
    loadPromise := none, fetchCount := 0 }

/-- Lookup map built by the forEach over the augments array. -/
def buildAugmentMap (l : List Augment) : List (String × Augment) :=
  l.foldl (fun m a => mapSet m a.key a) []

/-- AugmentsDataManager loadDataInternal: perform the fetch, and on
success store the data, rebuild the map and set isLoaded; the catch branch
clears isLoaded and resolves false. -/
def augmentsLoadDataInternal (s : AugmentsState)
    (fetchResult : Except String (List Augment)) : AugmentsState × Bool :=
  match fetchResult with
  | Except.ok l =>
      ({ s with augmentsData := some l, augmentMap := buildAugmentMap l,
                isLoaded := true, fetchCount := s.fetchCount + 1 }, true)
  | Except.error _ =>
      ({ s with isLoaded := false, fetchCount := s.fetchCount + 1 }, false)

/-- AugmentsDataManager.loadData: return the cached promise when present,
otherwise run the internal load and cache its outcome. -/
def augmentsLoadData (s : AugmentsState)
    (fetchResult : Except String (List Augment)) : AugmentsState × Bool :=
  match s.loadPromise with
  | some r => (s, r)
  | none =>
      let p := augmentsLoadDataInternal s fetchResult
      ({ p.1 with loadPromise := some p.2 }, p.2)

/-- AugmentsDataManager.getAugment: null before load, map lookup after. -/
def getAugment (s : AugmentsState) (key : String) : Option Augment :=
  if s.isLoaded = false then none
  else mapGet s.augmentMap key

/-- JavaScript String.includes as substring containment on the character list. -/
def jsIncludes (s sub : String) : Bool := decide (sub.data <:+: s.data)

/-- JavaScript String.toLowerCase, character by character (the data here is
ASCII). -/
def jsToLower (s : String) : String := String.mk (s.data.map Char.toLower)

/-- JavaScript String.trim: strip whitespace from both ends. -/
def jsTrim (s : String) : String :=
  String.mk (((s.data.dropWhile (fun c => c.isWhitespace)).reverse.dropWhile
    (fun c => c.isWhitespace)).reverse)

/-- Comparator test "a.title.toLowerCase().includes(searchTerm)" used for
relevance sorting in searchAugments. -/
def exactTitleMatch (term : String) (a : Augment) : Bool :=
  jsIncludes (jsToLower a.title) term

/-- Weak "a sorts no later than b" reading of the searchAugments comparator:
negative when only a is an exact title match, positive when only b is, and
b.tierPriority - a.tierPriority otherwise. -/
def augSortLe (term : String) (a b : Augment) : Bool :=
  if exactTitleMatch term a = exactTitleMatch term b then
    decide (b.tierPriority ≤ a.tierPriority)
  else exactTitleMatch term a

/-- AugmentsDataManager.searchAugments: filter by searchText containment,
stable-sort by the relevance comparator, truncate to the limit.  When
isLoaded holds the augmentsData field is always populated; getD covers the
unreachable null case. -/
def searchAugments (s : AugmentsState) (query : String) (limit : Nat) :
    List Augment :=
  if s.isLoaded = false then []
  else
    let searchTerm := jsTrim (jsToLower query)
    if searchTerm = "" then []
    else
      let found := (s.augmentsData.getD []).filter
        (fun a => jsIncludes a.searchText searchTerm)
      (found.mergeSort (augSortLe searchTerm)).take limit

/-- Trait record as stored in the bundled traits JSON. -/
structure Trait where
  key : String
  name : String
  type : String
  searchText : String
  activationLevels : List Int
deriving DecidableEq, Repr

/-- One entry of the activation-levels JSON for a trait. -/
structure ActivationLevelData where
  tierName : String
  description : String
deriving DecidableEq, Repr

/-- Activation data for one trait: descriptions keyed by activation level. -/
structure ActivationData where
  levels : List (Int × ActivationLevelData)
deriving DecidableEq, Repr

/-- TraitsDataManager mutable state. -/
structure TraitsState where
  traitsData : Option (List Trait)
  traitMap : List (String × Trait)
  activationMap : List (String × ActivationData)
  isLoaded : Bool
  loadPromise : Option Bool
  fetchCount : Nat
deriving DecidableEq

/-- TraitsDataManager constructor state. -/
def initialTraitsState : TraitsState :=
  { traitsData := none, traitMap := [], activationMap := [], isLoaded := false,
    loadPromise := none, fetchCount := 0 }

/-- TraitsDataManager loadDataInternal: a failed traits fetch is caught and
resolves false; a failed activation fetch merely skips the map building,
with isLoaded still set. -/
def traitsLoadDataInternal (s : TraitsState)
    (traitsFetch : Except String (List Trait))
    (activationFetch : Except String (List (String × ActivationData))) :
    TraitsState × Bool :=
  match traitsFetch with
  | Except.error _ =>
      ({ s with isLoaded := false, fetchCount := s.fetchCount + 1 }, false)
  | Except.ok traits =>
      match activationFetch with
      | Except.ok activations =>
          ({ s with traitsData := some traits,
                    traitMap := traits.foldl (fun m t => mapSet m t.key t) [],
                    activationMap :=
                      activations.foldl (fun m p => mapSet m p.1 p.2) [],
                    isLoaded := true, fetchCount := s.fetchCount + 2 }, true)
      | Except.error _ =>
          ({ s with traitsData := some traits, isLoaded := true,
                    fetchCount := s.fetchCount + 2 }, true)

/-- TraitsDataManager.loadData: cached in-flight promise, as for augments. -/
def traitsLoadData (s : TraitsState)
    (traitsFetch : Except String (List Trait))
    (activationFetch : Except String (List (String × ActivationData))) :
    TraitsState × Bool :=
  match s.loadPromise with
  | some r => (s, r)
  | none =>
      let p := traitsLoadDataInternal s traitsFetch activationFetch
      ({ p.1 with loadPromise := some p.2 }, p.2)

/-- TraitsDataManager.getTrait. -/
def getTrait (s : TraitsState) (key : String) : Option Trait :=
  if s.isLoaded = false then none else mapGet s.traitMap key

/-- TraitsDataManager.getTraitActivation. -/
def getTraitActivation (s : TraitsState) (key : String) : Option ActivationData :=
  if s.isLoaded = false then none else mapGet s.activationMap key

/-- Math.max spread over a list; only applied to nonempty lists here. -/
def jsMax (l : List Int) : Int := l.max?.getD 0

/-- Effect object returned by getTraitEffect. -/
structure TraitEffect where
  traitKey : String
  activeLevel : Int
  tierName : String
  description : String
  isMaxLevel : Bool
  nextLevel : Option Int
deriving DecidableEq, Repr

/-- TraitsDataManager.getTraitEffect: filter the activation levels the
count meets, take their maximum, and look that level up in the activation
descriptions. -/
def getTraitEffect (s : TraitsState) (key : String) (level : Int) :
    Option TraitEffect :=
  match getTrait s key, getTraitActivation s key with
  | some trait, some activation =>
      let activeLevels := trait.activationLevels.filter (fun r => r ≤ level)
      if activeLevels.isEmpty then none
      else
        let activeLevel := jsMax activeLevels
        match mapGet activation.levels activeLevel with
        | none => none
        | some ld =>
            some { traitKey := trait.key, activeLevel := activeLevel,
                   tierName := ld.tierName, description := ld.description,
                   isMaxLevel := decide (activeLevel = jsMax trait.activationLevels),
                   nextLevel := trait.activationLevels.find? (fun r => activeLevel < r) }
  | _, _ => none

/-- All (row, column) pairs visited by a nested scan over the given rows
and columns. -/
def pairList (rows cols : List Nat) : List (Nat × Nat) :=
  rows.flatMap (fun r => cols.map (fun c => (r, c)))

/-- Pixel whose right- or bottom-neighbor luminance difference exceeds 30. -/
def edgePixel (g : Nat → Nat) (width : Nat) (p : Nat × Nat) : Bool :=
  decide (30 < natAbsDiff (g (p.1 * width + p.2)) (g (p.1 * width + p.2 + 1)) ∨
    30 < natAbsDiff (g (p.1 * width + p.2)) (g ((p.1 + 1) * width + p.2)))

/-- Sampled pixel whose right-neighbor luminance difference exceeds 25. -/
def rightEdgePixel (g : Nat → Nat) (width : Nat) (p : Nat × Nat) : Bool :=
  decide (25 < natAbsDiff (g (p.1 * width + p.2)) (g (p.1 * width + p.2 + 1)))

/-- Sampled pixel whose right- or bottom-neighbor luminance difference
exceeds 25; this follows the specification text for the shop-pattern
statistic, which names both neighbors. -/
def shopSpecPixel (g : Nat → Nat) (width : Nat) (p : Nat × Nat) : Bool :=
  decide (25 < natAbsDiff (g (p.1 * width + p.2)) (g (p.1 * width + p.2 + 1)) ∨
    25 < natAbsDiff (g (p.1 * width + p.2)) (g ((p.1 + 1) * width + p.2)))

/-- Fraction of a pixel list satisfying a predicate (0 for an empty list). -/
def pixelFraction (p : Nat × Nat → Bool) (pix : List (Nat × Nat)) : ℚ :=
  if pix.length = 0 then 0 else (pix.countP p : ℚ) / (pix.length : ℚ)

/-- In-window pixels inspected by analyzeRegion. -/
def regionWindow (width height x y w h : Nat) : List (Nat × Nat) :=
  pairList (stepPos y (min (y + h) (height - 1)) 1)
    (stepPos x (min (x + w) (width - 1)) 1)

/-- Sampled pixels inspected by analyzeShopPattern (5-pixel grid). -/
def shopWindow (width height : Nat) (area : SearchArea) : List (Nat × Nat) :=
  pairList (stepPos area.y (min (area.y + area.height) (height - 1)) 5)
    (stepPos area.x (min (area.x + area.width) (width - 1)) 5)

/-- Edge fraction of the in-window pixels, as the spec words it. -/
def specEdgeFraction (g : Nat → Nat) (width height x y w h : Nat) : ℚ :=
  pixelFraction (edgePixel g width) (regionWindow width height x y w h)

/-- Right-neighbor edge fraction of the shop sampling grid. -/
def specShopFractionRight (g : Nat → Nat) (width height : Nat)
    (area : SearchArea) : ℚ :=
  pixelFraction (rightEdgePixel g width) (shopWindow width height area)

/-- Both-neighbor edge fraction of the shop sampling grid, as the spec
describes the shop-pattern statistic. -/
def specShopFractionBoth (g : Nat → Nat) (width height : Nat)
    (area : SearchArea) : ℚ :=
  pixelFraction (shopSpecPixel g width) (shopWindow width height area)

/-- Length of the pair list is the product of the two range lengths. -/
theorem length_pairList (rows cols : List Nat) :
    (pairList rows cols).length = rows.length * cols.length := by
  induction rows with
  | nil => simp [pairList]
  | cons r rs ih =>
      simp only [pairList, List.flatMap_cons, List.length_append,
        List.length_map, List.length_cons] at ih ⊢
      rw [ih]
      ring

/-- Inner column loop of the counting scans: the accumulator pair collects
a countP and a length. -/
theorem foldl_count_inner (q : Nat → Prop) [DecidablePred q] (cols : List Nat)
    (acc : Nat × Nat) :
    cols.foldl (fun a2 rx => ((if q rx then a2.1 + 1 else a2.1), a2.2 + 1)) acc =
      (acc.1 + cols.countP (fun rx => decide (q rx)), acc.2 + cols.length) := by
  induction cols generalizing acc with
  | nil => simp
  | cons c cs ih =>
      rw [List.foldl_cons, ih, Prod.ext_iff]
      simp only [List.countP_cons, List.length_cons]
      constructor
      · by_cases hc : q c <;> simp [hc] <;> omega
      · show acc.2 + 1 + cs.length = acc.2 + (cs.length + 1)
        omega

/-- Nested row/column loop of the counting scans. -/
theorem foldl_count_nested (q : Nat → Nat → Prop)
    [inst : ∀ a b, Decidable (q a b)] (rows cols : List Nat) (acc : Nat × Nat) :
    rows.foldl (fun a ry => cols.foldl
      (fun a2 rx => ((if q ry rx then a2.1 + 1 else a2.1), a2.2 + 1)) a) acc =
      (acc.1 + (pairList rows cols).countP (fun p => decide (q p.1 p.2)),
       acc.2 + rows.length * cols.length) := by
  induction rows generalizing acc with
  | nil => simp [pairList]
  | cons r rs ih =>
      rw [List.foldl_cons, foldl_count_inner (q r) cols acc, ih]
      rw [Prod.ext_iff]
      constructor
      · have hcomp : List.countP
            ((fun p : Nat × Nat => decide (q p.1 p.2)) ∘ fun c => (r, c)) cols =
            List.countP (fun rx => decide (q r rx)) cols := rfl
        simp only [pairList, List.flatMap_cons, List.countP_append,
          List.countP_map, hcomp]
        omega
      · simp only [List.length_cons]
        ring

/-- Refinement of the nested-loop edge counter: analyzeRegion computes the
clamped doubled edge fraction over its in-window pixels. -/
theorem analyzeRegion_eq_fraction (g : Nat → Nat) (width height x y w h : Nat) :
    analyzeRegion g width height x y w h =
      min (specEdgeFraction g width height x y w h * 2) 1 := by
  simp only [analyzeRegion, specEdgeFraction, regionWindow, pixelFraction,
    edgePixel]
  rw [foldl_count_nested (fun ry rx =>
    30 < natAbsDiff (g (ry * width + rx)) (g (ry * width + rx + 1)) ∨
    30 < natAbsDiff (g (ry * width + rx)) (g ((ry + 1) * width + rx)))]
  rw [length_pairList]
  rw [show (fun p : Nat × Nat =>
    decide (30 < natAbsDiff (g (p.1 * width + p.2)) (g (p.1 * width + p.2 + 1)) ∨
      30 < natAbsDiff (g (p.1 * width + p.2)) (g ((p.1 + 1) * width + p.2)))) =
    edgePixel g width from rfl]
  rcases Nat.eq_zero_or_pos ((stepPos y (min (y + h) (height - 1)) 1).length *
      (stepPos x (min (x + w) (width - 1)) 1).length) with hz | hp
  · rw [hz]
    norm_num
  · rw [if_pos (by omega), if_neg (by omega)]
    norm_num

/-- Refinement of the shop-pattern counter: analyzeShopPattern computes the
clamped 1.5-scaled right-neighbor edge fraction over its sampling grid. -/
theorem analyzeShopPattern_eq_fraction (g : Nat → Nat) (width height : Nat)
    (area : SearchArea) :
    analyzeShopPattern g width height area =
      min (specShopFractionRight g width height area * (3 / 2)) 1 := by
  simp only [analyzeShopPattern, specShopFractionRight, shopWindow,
    pixelFraction, rightEdgePixel]
  rw [foldl_count_nested (fun ry rx =>
    25 < natAbsDiff (g (ry * width + rx)) (g (ry * width + rx + 1)))]
  rw [length_pairList]
  rw [show (fun p : Nat × Nat =>
    decide (25 < natAbsDiff (g (p.1 * width + p.2)) (g (p.1 * width + p.2 + 1)))) =
    rightEdgePixel g width from rfl]
  rcases Nat.eq_zero_or_pos
      ((stepPos area.y (min (area.y + area.height) (height - 1)) 5).length *
       (stepPos area.x (min (area.x + area.width) (width - 1)) 5).length) with
    hz | hp
  · rw [hz]
    norm_num
  · rw [if_pos (by omega), if_neg (by omega)]
    norm_num

/-- Loop positions produced by stepPos lie in [start, stop) on the step grid. -/
theorem mem_stepPos {start stop step p : Nat} (hstep : 0 < step)
    (h : p ∈ stepPos start stop step) :
    start ≤ p ∧ p < stop ∧ (p - start) % step = 0 := by
  unfold stepPos at h
  obtain ⟨k, hk, rfl⟩ := List.mem_map.1 h
  rw [List.mem_range] at hk
  have h2 : (k + 1) * step ≤ stop - start + step - 1 :=
    (Nat.le_div_iff_mul_le hstep).1 hk
  have hmod : (start + step * k - start) % step = 0 := by
    simp [Nat.add_sub_cancel_left, Nat.mul_mod_right]
  refine ⟨Nat.le_add_right _ _, ?_, hmod⟩
  have h3 : step * k + step ≤ stop - start + step - 1 := by
    calc step * k + step = (k + 1) * step := by ring
    _ ≤ stop - start + step - 1 := h2
  revert h3
  generalize step * k = m
  intro h3
  omega

/-- Membership characterization for findRectangularRegions: every emitted
candidate is a threshold-passing fixed-size window on the 10-pixel grid of
the search area. -/
theorem mem_findRectangularRegions {g : Nat → Nat} {width height : Nat}
    {area : SearchArea} {params : RectParams} {c : Candidate}
    (h : c ∈ findRectangularRegions g width height area params) :
    area.x ≤ c.x ∧ c.x + params.minWidth < area.x + area.width ∧
      area.y ≤ c.y ∧ c.y + params.minHeight < area.y + area.height ∧
      c.width = params.minWidth ∧ c.height = params.minHeight ∧
      (c.x - area.x) % 10 = 0 ∧ (c.y - area.y) % 10 = 0 ∧
      c.confidence =
        analyzeRegion g width height c.x c.y params.minWidth params.minHeight ∧
      params.threshold < c.confidence := by
  unfold findRectangularRegions at h
  rw [List.mem_flatMap] at h
  obtain ⟨y, hy, hrest⟩ := h
  rw [List.mem_filterMap] at hrest
  obtain ⟨x, hx, hfx⟩ := hrest
  have hys := mem_stepPos (by norm_num) hy
  have hxs := mem_stepPos (by norm_num) hx
  dsimp only at hfx
  split at hfx
  next hth =>
    rw [Option.some.injEq] at hfx
    subst hfx
    have hx2 := hxs.2.1
    have hy2 := hys.2.1
    refine ⟨hxs.1, ?_, hys.1, ?_, rfl, rfl, hxs.2.2, hys.2.2, rfl, hth⟩
    · show x + params.minWidth < area.x + area.width
      omega
    · show y + params.minHeight < area.y + area.height
      omega
  next => exact Option.noConfusion hfx

/-- Membership characterization for findBrightRegions: every bright region
is a 20 by 20 window inside the search area. -/
theorem mem_findBrightRegions {g : Nat → Nat} {width height : Nat}
    {area : SearchArea} {c : Candidate}
    (h : c ∈ findBrightRegions g width height area) :
    area.x ≤ c.x ∧ c.x + 20 < area.x + area.width ∧
      area.y ≤ c.y ∧ c.y + 20 < area.y + area.height ∧
      c.width = 20 ∧ c.height = 20 := by
  unfold findBrightRegions at h
  rw [List.mem_flatMap] at h
  obtain ⟨y, hy, hrest⟩ := h
  rw [List.mem_filterMap] at hrest
  obtain ⟨x, hx, hfx⟩ := hrest
  have hys := mem_stepPos (by norm_num) hy
  have hxs := mem_stepPos (by norm_num) hx
  dsimp only at hfx
  have hx2a := hxs.2.1
  have hy2 := hys.2.1
  split at hfx <;> split at hfx <;>
    first
      | exact Option.noConfusion hfx
      | · rw [Option.some.injEq] at hfx
          subst hfx
          refine ⟨hxs.1, ?_, hys.1, ?_, rfl, rfl⟩
          · show x + 20 < area.x + area.width
            omega
          · show y + 20 < area.y + area.height
            omega

/-- Elements of an enum-map over candidates come from member candidates. -/
theorem mem_enum_map_candidate {l : List Candidate} {f : Nat × Candidate → TftElement}
    {e : TftElement} (h : e ∈ l.enum.map f) :
    ∃ c ∈ l, ∃ i, e = f (i, c) := by
  rw [List.mem_map] at h
  obtain ⟨⟨i, c⟩, hp, rfl⟩ := h
  have hm := List.mem_enum hp
  exact ⟨c, by rw [hm.2]; exact List.getElem_mem _, i, rfl⟩

/-- C1: every element emitted by the detection path over the configured
search regions (augment, champion, shop, gold) lies inside the frame
bounds: x and y are nonnegative, x + width and y + height do not exceed
the frame dimensions. -/
theorem detect_candidates_within_frame (g : Nat → Nat) (width height : Nat) :
    ∀ e ∈ detectTftElements g width height,
      0 ≤ e.x ∧ 0 ≤ e.y ∧ e.x + e.width ≤ width ∧ e.y + e.height ≤ height := by
  intro e he
  refine ⟨Nat.zero_le _, Nat.zero_le _, ?_⟩
  unfold detectTftElements at he
  simp only [List.mem_append] at he
  rcases he with ((he | he) | he) | he
  · -- augment
    unfold detectAugmentSlots at he
    dsimp only at he
    obtain ⟨c, hc, i, rfl⟩ := mem_enum_map_candidate he
    obtain ⟨_, hxw, _, hyh, hw, hh, -, -, -, -⟩ := mem_findRectangularRegions hc
    dsimp only at hxw hyh hw hh ⊢
    rw [hw, hh]
    simp only [jround] at hxw hyh
    constructor
    · show c.x + 80 ≤ width
      omega
    · show c.y + 80 ≤ height
      omega
  · -- champion
    unfold detectChampionSlots at he
    dsimp only at he
    obtain ⟨c, hc, i, rfl⟩ := mem_enum_map_candidate he
    obtain ⟨_, hxw, _, hyh, hw, hh, -, -, -, -⟩ := mem_findRectangularRegions hc
    dsimp only at hxw hyh hw hh ⊢
    rw [hw, hh]
    simp only [jround] at hxw hyh
    constructor
    · show c.x + 50 ≤ width
      omega
    · show c.y + 50 ≤ height
      omega
  · -- shop
    unfold detectShopArea at he
    dsimp only at he
    split at he
    · rw [List.mem_singleton] at he
      subst he
      dsimp only
      simp only [jround]
      constructor
      · rcases Nat.eq_zero_or_pos width with rfl | hw
        · decide
        · omega
      · omega
    · exact absurd he (List.not_mem_nil e)
  · -- gold
    unfold detectGoldIndicator at he
    rw [List.mem_flatMap] at he
    obtain ⟨⟨ai, area⟩, hpa, he⟩ := he
    dsimp only at he
    obtain ⟨c, hc, i, rfl⟩ := mem_enum_map_candidate he
    obtain ⟨-, hxw, -, hyh, hw, hh⟩ := mem_findBrightRegions hc
    dsimp only
    rw [hw, hh]
    obtain ⟨hlt, hget⟩ := List.mem_enum hpa
    have hai : ai = 0 ∨ ai = 1 := by
      simp only [List.length_cons, List.length_nil] at hlt
      omega
    rcases hai with rfl | rfl
    · rw [hget] at hxw hyh
      have hx2 : c.x + 20 < 0 + jround (3 * width) 10 := hxw
      have hy2 : c.y + 20 < 0 + jround height 5 := hyh
      simp only [jround] at hx2 hy2
      exact ⟨by omega, by omega⟩
    · rw [hget] at hxw hyh
      have hx2 : c.x + 20 < 0 + jround (3 * width) 10 := hxw
      have hy2 : c.y + 20 < jround (4 * height) 5 + jround height 5 := hyh
      simp only [jround] at hx2 hy2
      exact ⟨by omega, by omega⟩

/-- Test image with alternating columns: adjacent pixels always differ by
255 in luminance. -/
def stripeCols (i : Nat) : Nat := (i % 2) * 255

/-- Test image with alternating 1-pixel rows: horizontally constant, so no
right-neighbor edge exists anywhere, while every bottom neighbor differs by
255 (width 10). -/
def rowStripes (i : Nat) : Nat := ((i / 10) % 2) * 255

/-- Test frame of width 100 and height 110: a bright band in the top 30
rows, alternating columns below. -/
def testFrame (i : Nat) : Nat :=
  if i / 100 < 30 then 255 else (i % 100 % 2) * 255

/-- Shop element returned by detectShopArea on testFrame at 100 by 110. -/
def testShopElement : TftElement :=
  { type := ElemType.shop, x := 15, y := 83, width := 70, height := 22,
    confidence := 1, cost := none, id := "shop_area" }

/-- C1: for every frame buffer and every configured search region, every
candidate returned by the detection path (findRectangularRegions via the
augment and champion detectors, detectShopArea, findBrightRegions via the
gold detector) satisfies 0 ≤ x, 0 ≤ y, x + width ≤ frame width and
y + height ≤ frame height. -/
theorem detect_elements_inside_frame (g : Nat → Nat) (width height : Nat) :
    ∀ e ∈ detectTftElements g width height,
      0 ≤ e.x ∧ 0 ≤ e.y ∧ e.x + e.width ≤ width ∧ e.y + e.height ≤ height :=
  detect_candidates_within_frame g width height

set_option maxRecDepth 100000 in
/-- Witness for C1 on a concrete frame: the shop detector fires on
testFrame and the returned rectangle lies inside the 100 by 110 frame. -/
theorem detect_elements_inside_frame_witness :
    testShopElement ∈ detectTftElements testFrame 100 110 ∧
      (0 ≤ testShopElement.x ∧ 0 ≤ testShopElement.y ∧
        testShopElement.x + testShopElement.width ≤ 100 ∧
        testShopElement.y + testShopElement.height ≤ 110) :=
  ⟨by with_unfolding_all decide,
    detect_elements_inside_frame testFrame 100 110 testShopElement
      (by with_unfolding_all decide)⟩

/-- C6 (amended): the generic region statistic is the clamped doubled
fraction of in-window pixels whose right- or bottom-neighbor difference
exceeds 30; the shop statistic is the clamped 1.5-scaled fraction of
sampled pixels whose right-neighbor difference exceeds 25 (the code does
not consult bottom neighbors in the shop check). -/
theorem region_statistics_are_fractions (g : Nat → Nat) (width height : Nat) :
    (∀ x y w h, analyzeRegion g width height x y w h =
      min (2 * specEdgeFraction g width height x y w h) 1) ∧
    (∀ area, analyzeShopPattern g width height area =
      min ((3 / 2) * specShopFractionRight g width height area) 1) := by
  constructor
  · intro x y w h
    rw [analyzeRegion_eq_fraction, mul_comm]
  · intro area
    rw [analyzeShopPattern_eq_fraction, mul_comm]

/-- Counterexample for C6 as stated: on a row-striped image the shop
statistic computed by the code is 0, while the clamped 1.5-scaled fraction
of sampled pixels with a right- or bottom-neighbor difference above 25 (the
spec reading) is 1. -/
theorem analyzeShopPattern_not_both_neighbors :
    analyzeShopPattern rowStripes 10 10
        { x := 0, y := 0, width := 10, height := 10 } = 0 ∧
      min ((3 / 2) * specShopFractionBoth rowStripes 10 10
        { x := 0, y := 0, width := 10, height := 10 }) 1 = 1 := by
  constructor
  · with_unfolding_all decide
  · with_unfolding_all decide

/-- C7: every candidate emitted by findRectangularRegions has width exactly
minWidth, height exactly minHeight, confidence strictly above the
threshold, sits on the 10-pixel grid anchored at the search-area origin,
and carries exactly the analyzeRegion statistic of its window, so no
window at or below the threshold produces a candidate. -/
theorem findRectangularRegions_candidates (g : Nat → Nat)
    (width height : Nat) (area : SearchArea) (params : RectParams) :
    ∀ c ∈ findRectangularRegions g width height area params,
      c.width = params.minWidth ∧ c.height = params.minHeight ∧
      params.threshold < c.confidence ∧
      (c.x - area.x) % 10 = 0 ∧ (c.y - area.y) % 10 = 0 ∧
      c.confidence =
        analyzeRegion g width height c.x c.y params.minWidth params.minHeight := by
  intro c hc
  obtain ⟨-, -, -, -, h5, h6, h7, h8, h9, h10⟩ := mem_findRectangularRegions hc
  exact ⟨h5, h6, h10, h7, h8, h9⟩

/-- Search area and parameters for the C7 witness scan. -/
def stripeArea : SearchArea := { x := 0, y := 0, width := 6, height := 6 }

/-- Parameters with a small 2 by 2 window and threshold one half. -/
def stripeParams : RectParams :=
  { minWidth := 2, maxWidth := 3, minHeight := 2, maxHeight := 3,
    threshold := 1 / 2 }

/-- Candidate found by the C7 witness scan. -/
def stripeCand : Candidate :=
  { x := 0, y := 0, width := 2, height := 2, confidence := 1 }

/-- Witness for C7: on the striped image the scan emits the candidate at
the area origin with the fixed window size and confidence 1. -/
theorem findRectangularRegions_candidates_witness :
    stripeCand ∈ findRectangularRegions stripeCols 6 6 stripeArea stripeParams ∧
      (stripeCand.width = stripeParams.minWidth ∧
       stripeCand.height = stripeParams.minHeight ∧
       stripeParams.threshold < stripeCand.confidence ∧
       (stripeCand.x - stripeArea.x) % 10 = 0 ∧
       (stripeCand.y - stripeArea.y) % 10 = 0 ∧
       stripeCand.confidence = analyzeRegion stripeCols 6 6 stripeCand.x
         stripeCand.y stripeParams.minWidth stripeParams.minHeight) :=
  ⟨by with_unfolding_all decide,
    findRectangularRegions_candidates stripeCols 6 6 stripeArea stripeParams
      stripeCand (by with_unfolding_all decide)⟩

/-- C5: a processFrame call that arrives while isProcessing is set returns
the empty result immediately, leaves the state untouched, and runs no
detection, so overlapping ticks are dropped rather than queued. -/
theorem processFrame_reentrancy_guard (s : ProcState)
    (raw : Except String FrameData) (elapsed now : ℚ)
    (h : s.isProcessing = true) :
    processFrame s raw elapsed now = (emptyProcResult, s, false) := by
  unfold processFrame
  rw [h]
  rfl

/-- Witness for C5 at a concrete busy state. -/
theorem processFrame_reentrancy_guard_witness :
    processFrame { isProcessing := true, lastProcessTime := 0 }
        (Except.error "tick") 0 0 =
      (emptyProcResult, { isProcessing := true, lastProcessTime := 0 }, false) :=
  processFrame_reentrancy_guard _ _ _ _ rfl

/-- C9: when frame extraction throws, processFrame returns the empty result
for that tick, runs no detection, and hands the next tick the original
state with the guard cleared and lastProcessTime untouched. -/
theorem processFrame_extraction_failure (s : ProcState) (msg : String)
    (elapsed now : ℚ) (h : s.isProcessing = false) :
    processFrame s (Except.error msg) elapsed now =
      (emptyProcResult, s, false) := by
  cases s with
  | mk ip lt =>
      cases ip
      · rfl
      · exact Bool.noConfusion h

/-- Witness for C9 at a concrete idle state. -/
theorem processFrame_extraction_failure_witness :
    processFrame { isProcessing := false, lastProcessTime := 3 }
        (Except.error "getImageData failed") 7 9 =
      (emptyProcResult, { isProcessing := false, lastProcessTime := 3 },
        false) :=
  processFrame_extraction_failure _ _ _ _ rfl

/-- Range of the cost heuristic: always between 1 and 5. -/
theorem estimateChampionCost_bounds (c : Candidate) :
    1 ≤ estimateChampionCost c ∧ estimateChampionCost c ≤ 5 := by
  unfold estimateChampionCost
  split_ifs <;> omega

/-- Monotonicity of the cost heuristic in the confidence. -/
theorem estimateChampionCost_mono {c1 c2 : Candidate}
    (h : c1.confidence ≤ c2.confidence) :
    estimateChampionCost c1 ≤ estimateChampionCost c2 := by
  unfold estimateChampionCost
  split_ifs <;> first | omega | (exfalso; linarith)

/-- C10: estimateChampionCost always returns a value in 1..5, is monotone
non-decreasing in the candidate confidence, and every champion element
emitted by detectChampionSlots carries a cost field in that range. -/
theorem estimateChampionCost_spec :
    (∀ c : Candidate,
      1 ≤ estimateChampionCost c ∧ estimateChampionCost c ≤ 5) ∧
    (∀ c1 c2 : Candidate, c1.confidence ≤ c2.confidence →
      estimateChampionCost c1 ≤ estimateChampionCost c2) ∧
    (∀ (g : Nat → Nat) (width height : Nat) (e : TftElement),
      e ∈ detectChampionSlots g width height → ∀ n, e.cost = some n →
        1 ≤ n ∧ n ≤ 5) := by
  refine ⟨estimateChampionCost_bounds,
    fun c1 c2 h => estimateChampionCost_mono h, ?_⟩
  intro g width height e he n hn
  unfold detectChampionSlots at he
  dsimp only at he
  obtain ⟨c, hc, i, rfl⟩ := mem_enum_map_candidate he
  dsimp only at hn
  rw [Option.some.injEq] at hn
  subst hn
  exact estimateChampionCost_bounds c

/-- Candidate with confidence one half, below every cost threshold. -/
def lowCand : Candidate :=
  { x := 0, y := 0, width := 0, height := 0, confidence := 1 / 2 }

/-- Candidate with confidence one, above every cost threshold. -/
def highCand : Candidate :=
  { x := 0, y := 0, width := 0, height := 0, confidence := 1 }

/-- Champion element found on the striped 85 by 202 frame. -/
def champElem : TftElement :=
  { type := ElemType.champion, x := 17, y := 141, width := 50, height := 50,
    confidence := 1, cost := some 5, id := "champion_0" }

/-- On the striped image every in-window pixel of the champion window is an
edge pixel, so the window statistic is exactly 1. -/
theorem analyzeRegion_stripeCols_champion :
    analyzeRegion stripeCols 85 202 17 141 50 50 = 1 := by
  rw [analyzeRegion_eq_fraction]
  have hall : ∀ p ∈ regionWindow 85 202 17 141 50 50,
      edgePixel stripeCols 85 p = true := by
    intro p _
    unfold edgePixel
    rw [decide_eq_true_eq]
    left
    show 30 < natAbsDiff (stripeCols (p.1 * 85 + p.2))
      (stripeCols (p.1 * 85 + p.2 + 1))
    unfold stripeCols natAbsDiff
    omega
  unfold specEdgeFraction pixelFraction
  rw [List.countP_eq_length.mpr hall]
  have hlen : (regionWindow 85 202 17 141 50 50).length = 2500 := by
    rw [regionWindow, length_pairList]
    with_unfolding_all decide
  rw [hlen]
  norm_num

/-- The champion detector on the striped 85 by 202 frame finds exactly the
single full-confidence candidate. -/
theorem detectChampionSlots_stripeCols :
    detectChampionSlots stripeCols 85 202 = [champElem] := by
  have h1 : stepPos (jround (7 * 202) 10)
      ((jround (7 * 202) 10 + jround 202 4) - 50) 10 = [141] := by
    with_unfolding_all decide
  have h2 : stepPos (jround 85 5) ((jround 85 5 + jround (3 * 85) 5) - 50) 10 =
      [17] := by
    with_unfolding_all decide
  unfold detectChampionSlots findRectangularRegions
  dsimp only
  rw [h1, h2, List.flatMap_cons, List.flatMap_nil, List.append_nil,
    List.filterMap_cons, List.filterMap_nil]
  rw [analyzeRegion_stripeCols_champion]
  norm_num
  with_unfolding_all decide

/-- Witness for C10: cost bounds at a concrete candidate, monotonicity
between two concrete confidences, and a concrete champion element whose
cost 5 lies in range. -/
theorem estimateChampionCost_spec_witness :
    (1 ≤ estimateChampionCost lowCand ∧ estimateChampionCost lowCand ≤ 5) ∧
      (lowCand.confidence ≤ highCand.confidence ∧
        estimateChampionCost lowCand ≤ estimateChampionCost highCand) ∧
      (champElem ∈ detectChampionSlots stripeCols 85 202 ∧
        champElem.cost = some 5 ∧ 1 ≤ 5 ∧ (5 : Nat) ≤ 5) := by
  have hmem : champElem ∈ detectChampionSlots stripeCols 85 202 := by
    rw [detectChampionSlots_stripeCols]
    exact List.mem_singleton.mpr rfl
  refine ⟨estimateChampionCost_spec.1 lowCand,
    ⟨by norm_num [lowCand, highCand],
      estimateChampionCost_spec.2.1 lowCand highCand
        (by norm_num [lowCand, highCand])⟩,
    hmem, rfl, ?_⟩
  exact estimateChampionCost_spec.2.2 stripeCols 85 202 champElem hmem 5 rfl

/-- Reading back through mapSet: the set key sees the new value, all other
keys are unaffected. -/
theorem mapGet_mapSet {α β : Type} [DecidableEq α] (m : List (α × β))
    (k1 k2 : α) (v : β) :
    mapGet (mapSet m k1 v) k2 = if k1 = k2 then some v else mapGet m k2 := by
  induction m with
  | nil =>
      by_cases h : k1 = k2 <;> simp [mapSet, mapGet, h]
  | cons a rest ih =>
      obtain ⟨ka, va⟩ := a
      by_cases hka : ka = k1 <;> by_cases h2 : k1 = k2 <;>
        simp_all [mapSet, mapGet]

/-- A key bound nowhere in the association list reads back as none. -/
theorem mapGet_eq_none {α β : Type} [DecidableEq α] (m : List (α × β)) (k : α)
    (h : ∀ q ∈ m, q.1 ≠ k) : mapGet m k = none := by
  induction m with
  | nil => rfl
  | cons a rest ih =>
      simp only [mapGet]
      rw [if_neg (h a (List.mem_cons_self a rest))]
      exact ih (fun q hq => h q (List.mem_cons_of_mem a hq))

/-- Entries of mapSet are the new binding or old entries. -/
theorem mem_mapSet {α β : Type} [DecidableEq α] {m : List (α × β)} {k : α}
    {v : β} {q : α × β} (h : q ∈ mapSet m k v) : q = (k, v) ∨ q ∈ m := by
  induction m with
  | nil => simpa [mapSet] using h
  | cons a rest ih =>
      unfold mapSet at h
      split at h
      · rcases List.mem_cons.mp h with h1 | h1
        · exact Or.inl h1
        · exact Or.inr (List.mem_cons_of_mem a h1)
      · rcases List.mem_cons.mp h with h1 | h1
        · exact Or.inr (h1 ▸ List.mem_cons_self a rest)
        · rcases ih h1 with h2 | h2
          · exact Or.inl h2
          · exact Or.inr (List.mem_cons_of_mem a h2)

/-- Generalized build loop: looking up a key in a map extended by the
forEach over a list with distinct fresh keys finds the old binding first
and otherwise the first matching list record. -/
theorem mapGet_foldl_mapSet (l : List Augment) (m : List (String × Augment))
    (k : String) (hnd : (l.map Augment.key).Nodup)
    (hdisj : ∀ a ∈ l, ∀ q ∈ m, q.1 ≠ a.key) :
    mapGet (l.foldl (fun acc a => mapSet acc a.key a) m) k =
      (mapGet m k).or (l.find? (fun a => a.key == k)) := by
  induction l generalizing m with
  | nil => simp [List.find?]
  | cons a rest ih =>
      rw [List.foldl_cons]
      rw [List.map_cons, List.nodup_cons] at hnd
      rw [ih (mapSet m a.key a) hnd.2 ?hdisj2]
      case hdisj2 =>
        intro b hb q hq
        rcases mem_mapSet hq with rfl | hq2
        · show a.key ≠ b.key
          intro he
          exact hnd.1 (he ▸ List.mem_map_of_mem Augment.key hb)
        · exact hdisj b (List.mem_cons_of_mem a hb) q hq2
      rw [mapGet_mapSet, List.find?_cons]
      by_cases hk : a.key = k
      · rw [if_pos hk]
        have hnone : mapGet m k = none := by
          apply mapGet_eq_none
          intro q hq
          have := hdisj a (List.mem_cons_self a rest) q hq
          rw [hk] at this
          exact this
        rw [hnone]
        have hbeq : (a.key == k) = true := by
          simp [hk]
        rw [hbeq]
        rfl
      · rw [if_neg hk]
        have hbeq : (a.key == k) = false := by
          simp [hk]
        rw [hbeq]

/-- Lookup in the built augment map is first-match search in the source
array when keys are distinct. -/
theorem mapGet_buildAugmentMap (l : List Augment) (k : String)
    (hnd : (l.map Augment.key).Nodup) :
    mapGet (buildAugmentMap l) k = l.find? (fun a => a.key == k) := by
  unfold buildAugmentMap
  rw [mapGet_foldl_mapSet l [] k hnd (by intro a _ q hq; cases hq)]
  rfl

/-- Modelled from the spec: the bundled augments JSON fixture
(assets/augments/tft-set14-augments.json) is not among the repository
source files; this list reproduces the record documented for key
TFT_Augment_AxiomArc3 (title Axiom Arc III, tier Prismatic) together with
further records in the documented schema, and instantiates the
data-manager theorems. -/
def fixtureAugments : List Augment :=
  [{ key := "TFT_Augment_AxiomArc3", title := "Axiom Arc III",
     description := "Your units gain 15 Mana on kill. Gain a completed item Anvil.",
     tier := "Prismatic",
     searchText := "axiom arc iii your units gain 15 mana on kill gain a completed item anvil",
     tierPriority := 3, powerLevel := 30 },
   { key := "TFT_Augment_BruiserCrown", title := "Bruiser Crown",
     description := "Gain a Bruiser Emblem and a Training Dummy.",
     tier := "Gold",
     searchText := "bruiser crown gain a bruiser emblem and a training dummy",
     tierPriority := 2, powerLevel := 25 },
   { key := "TFT_Augment_BruiserCrest", title := "Bruiser Crest",
     description := "Gain a Bruiser Emblem.",
     tier := "Silver",
     searchText := "bruiser crest gain a bruiser emblem",
     tierPriority := 1, powerLevel := 15 },
   { key := "TFT_Augment_BestFriends1", title := "Best Friends I",
     description := "Units adjacent to exactly one bruiser gain Armor.",
     tier := "Silver",
     searchText := "best friends i units adjacent to exactly one bruiser gain armor",
     tierPriority := 1, powerLevel := 10 }]

/-- C2: getAugment returns null whenever the loaded flag is false; after a
successful load it returns exactly the first record of the loaded array
whose key matches (null when none does); on the fixture, the key
TFT_Augment_AxiomArc3 yields title Axiom Arc III and tier Prismatic. -/
theorem getAugment_spec :
    (∀ (s : AugmentsState) (key : String),
      s.isLoaded = false → getAugment s key = none) ∧
    (∀ (l : List Augment) (key : String), (l.map Augment.key).Nodup →
      getAugment (augmentsLoadData initialAugmentsState (Except.ok l)).1 key =
        l.find? (fun a => a.key == key)) ∧
    ((getAugment (augmentsLoadData initialAugmentsState
        (Except.ok fixtureAugments)).1 "TFT_Augment_AxiomArc3").map
          Augment.title = some "Axiom Arc III" ∧
      (getAugment (augmentsLoadData initialAugmentsState
        (Except.ok fixtureAugments)).1 "TFT_Augment_AxiomArc3").map
          Augment.tier = some "Prismatic") := by
  refine ⟨?_, ?_, by decide, by decide⟩
  · intro s key h
    unfold getAugment
    rw [h]
    rfl
  · intro l key hnd
    show mapGet (buildAugmentMap l) key = _
    exact mapGet_buildAugmentMap l key hnd

/-- Witness for C2: the unloaded manager answers none, and the loaded
fixture manager resolves the AxiomArc3 key by first-match search. -/
theorem getAugment_spec_witness :
    (initialAugmentsState.isLoaded = false ∧
      getAugment initialAugmentsState "TFT_Augment_AxiomArc3" = none) ∧
      ((fixtureAugments.map Augment.key).Nodup ∧
        getAugment (augmentsLoadData initialAugmentsState
            (Except.ok fixtureAugments)).1 "TFT_Augment_AxiomArc3" =
          fixtureAugments.find?
            (fun a => a.key == "TFT_Augment_AxiomArc3")) :=
  ⟨⟨rfl, getAugment_spec.1 initialAugmentsState _ rfl⟩,
    ⟨by decide, getAugment_spec.2.1 fixtureAugments _ (by decide)⟩⟩

/-- C8: a second loadData call returns the cached promise of the first and
changes nothing: the resulting state (including the lookup maps and the
fetch counter) and result equal those of the single first call, whatever
the second fetch would have produced, for both data managers. -/
theorem loadData_idempotent :
    (∀ (f f2 : Except String (List Augment)),
      augmentsLoadData (augmentsLoadData initialAugmentsState f).1 f2 =
        augmentsLoadData initialAugmentsState f) ∧
    (∀ (tf tf2 : Except String (List Trait))
        (af af2 : Except String (List (String × ActivationData))),
      traitsLoadData (traitsLoadData initialTraitsState tf af).1 tf2 af2 =
        traitsLoadData initialTraitsState tf af) := by
  constructor
  · intro f f2
    cases f <;> rfl
  · intro tf tf2 af af2
    cases tf <;> cases af <;> rfl

/-- Transitivity of the searchAugments relevance comparator. -/
theorem augSortLe_trans (term : String) :
    ∀ a b c, augSortLe term a b = true → augSortLe term b c = true →
      augSortLe term a c = true := by
  intro a b c hab hbc
  unfold augSortLe at hab hbc ⊢
  cases hA : exactTitleMatch term a <;> cases hB : exactTitleMatch term b <;>
    cases hC : exactTitleMatch term c <;> simp_all <;> omega

/-- Totality of the searchAugments relevance comparator. -/
theorem augSortLe_total (term : String) :
    ∀ a b, (augSortLe term a b || augSortLe term b a) = true := by
  intro a b
  unfold augSortLe
  cases hA : exactTitleMatch term a <;> cases hB : exactTitleMatch term b <;>
    simp_all <;> omega

/-- Reading of the comparator: a weakly-before b means b is no more exact
a title match than a, and equal exactness is ordered by descending tier
priority. -/
theorem augSortLe_implies (term : String) {a b : Augment}
    (h : augSortLe term a b = true) :
    (exactTitleMatch term a = false → exactTitleMatch term b = false) ∧
      (exactTitleMatch term a = exactTitleMatch term b →
        b.tierPriority ≤ a.tierPriority) := by
  unfold augSortLe at h
  cases hA : exactTitleMatch term a <;> cases hB : exactTitleMatch term b <;>
    simp_all

/-- C4: searchAugments for the query bruiser returns only records whose
precomputed searchText contains the substring bruiser, ordered with
records whose lowercased title contains the query first and, within equal
exactness, by descending tierPriority. -/
theorem searchAugments_bruiser_spec (l : List Augment) (limit : Nat) :
    (∀ a ∈ searchAugments (augmentsLoadData initialAugmentsState
        (Except.ok l)).1 "bruiser" limit,
      jsIncludes a.searchText "bruiser" = true) ∧
      (searchAugments (augmentsLoadData initialAugmentsState
          (Except.ok l)).1 "bruiser" limit).Pairwise
        (fun a b =>
          (exactTitleMatch "bruiser" a = false →
            exactTitleMatch "bruiser" b = false) ∧
          (exactTitleMatch "bruiser" a = exactTitleMatch "bruiser" b →
            b.tierPriority ≤ a.tierPriority)) := by
  have hred : searchAugments (augmentsLoadData initialAugmentsState
      (Except.ok l)).1 "bruiser" limit =
      ((l.filter (fun a => jsIncludes a.searchText "bruiser")).mergeSort
        (augSortLe "bruiser")).take limit := by
    with_unfolding_all rfl
  rw [hred]
  constructor
  · intro a ha
    have h1 := (List.take_sublist limit _).subset ha
    have h2 := List.mem_mergeSort.mp h1
    exact (List.mem_filter.mp h2).2
  · have hsorted := @List.sorted_mergeSort Augment (augSortLe "bruiser")
      (augSortLe_trans "bruiser") (augSortLe_total "bruiser")
      (l.filter (fun a => jsIncludes a.searchText "bruiser"))
    have htake := hsorted.sublist (List.take_sublist limit _)
    exact htake.imp (fun hab => augSortLe_implies "bruiser" hab)

/-- Witness for C4: the containment and ordering properties instantiated
on the loaded fixture with the default limit 10. -/
theorem searchAugments_bruiser_spec_witness :
    (∀ a ∈ searchAugments (augmentsLoadData initialAugmentsState
        (Except.ok fixtureAugments)).1 "bruiser" 10,
      jsIncludes a.searchText "bruiser" = true) ∧
      (searchAugments (augmentsLoadData initialAugmentsState
          (Except.ok fixtureAugments)).1 "bruiser" 10).Pairwise
        (fun a b =>
          (exactTitleMatch "bruiser" a = false →
            exactTitleMatch "bruiser" b = false) ∧
          (exactTitleMatch "bruiser" a = exactTitleMatch "bruiser" b →
            b.tierPriority ≤ a.tierPriority)) :=
  searchAugments_bruiser_spec fixtureAugments 10

/-- A nonempty foldl over max returns the unique upper-bound member. -/
theorem foldl_max_eq (as : List Int) :
    ∀ (a m : Int), m ∈ a :: as → (∀ x ∈ a :: as, x ≤ m) →
      as.foldl max a = m := by
  induction as with
  | nil =>
      intro a m hm hub
      have h1 : m = a := by simpa using hm
      have h2 : a ≤ m := hub a (by simp)
      simp only [List.foldl_nil]
      omega
  | cons b as ih =>
      intro a m hm hub
      rw [List.foldl_cons]
      apply ih (max a b) m
      · have ha : a ≤ m := hub a (by simp)
        have hb : b ≤ m := hub b (by simp)
        rcases List.mem_cons.mp hm with rfl | hm2
        · have : max m b = m := max_eq_left hb
          rw [this]
          exact List.mem_cons_self _ _
        · rcases List.mem_cons.mp hm2 with rfl | hm3
          · have : max a m = m := max_eq_right ha
            rw [this]
            exact List.mem_cons_self _ _
          · exact List.mem_cons_of_mem _ hm3
      · intro x hx
        rcases List.mem_cons.mp hx with rfl | hx2
        · exact max_le (hub a (by simp)) (hub b (by simp))
        · exact hub x (by simp [hx2])

/-- Math.max over a nonempty list returns the upper-bound member. -/
theorem jsMax_eq (l : List Int) (m : Int) (hm : m ∈ l)
    (hub : ∀ x ∈ l, x ≤ m) : jsMax l = m := by
  cases l with
  | nil => exact absurd hm (List.not_mem_nil m)
  | cons a as =>
      unfold jsMax
      rw [show (a :: as).max? = some (as.foldl max a) from rfl]
      simp only [Option.getD_some]
      exact foldl_max_eq as a m hm hub

/-- C3: for a loaded trait with activation data, getTraitEffect returns
null when the count is below every activation level, and otherwise the
effect for the largest activation level not exceeding the count together
with that level's description. -/
theorem getTraitEffect_spec (s : TraitsState) (key : String) (count : Int)
    (t : Trait) (a : ActivationData)
    (ht : getTrait s key = some t)
    (ha : getTraitActivation s key = some a) :
    ((∀ r ∈ t.activationLevels, count < r) →
      getTraitEffect s key count = none) ∧
      (∀ m, m ∈ t.activationLevels → m ≤ count →
        (∀ r ∈ t.activationLevels, r ≤ count → r ≤ m) →
        ∀ d, mapGet a.levels m = some d →
          (getTraitEffect s key count).map
              (fun e => (e.activeLevel, e.description)) =
            some (m, d.description)) := by
  constructor
  · intro hlt
    unfold getTraitEffect
    rw [ht, ha]
    have hfil : t.activationLevels.filter (fun r => decide (r ≤ count)) = [] := by
      rw [List.filter_eq_nil_iff]
      intro r hr
      simp only [decide_eq_true_eq]
      exact not_le.mpr (hlt r hr)
    dsimp only
    rw [hfil]
    rfl
  · intro m hmem hle hub d hd
    unfold getTraitEffect
    rw [ht, ha]
    dsimp only
    have hmax : jsMax (t.activationLevels.filter (fun r => decide (r ≤ count)))
        = m := by
      apply jsMax_eq
      · exact List.mem_filter.mpr ⟨hmem, by simpa using hle⟩
      · intro x hx
        obtain ⟨hx1, hx2⟩ := List.mem_filter.mp hx
        exact hub x hx1 (by simpa using hx2)
    have hne : (t.activationLevels.filter
        (fun r => decide (r ≤ count))).isEmpty = false := by
      rw [List.isEmpty_eq_false_iff_exists_mem]
      exact ⟨m, List.mem_filter.mpr ⟨hmem, by simpa using hle⟩⟩
    rw [hne]
    simp only [Bool.false_eq_true, if_false, hmax, hd]
    rfl

/-- Modelled from the spec: the bundled traits JSON and activation-levels
JSON fixtures are not among the repository source files; this trait with
activation levels [2, 4, 6] follows the example in the spec sentence for
getTraitEffect. -/
def sampleTrait : Trait :=
  { key := "TFT14_Bruiser", name := "Bruiser", type := "class",
    searchText := "bruiser", activationLevels := [2, 4, 6] }

/-- Modelled from the spec: activation descriptions for the sample trait,
one per activation level. -/
def sampleActivation : ActivationData :=
  { levels := [(2, { tierName := "Bronze", description := "desc2" }),
               (4, { tierName := "Silver", description := "desc4" }),
               (6, { tierName := "Gold", description := "desc6" })] }

/-- Traits manager state after successfully loading the sample fixture. -/
def sampleTraitsState : TraitsState :=
  (traitsLoadData initialTraitsState (Except.ok [sampleTrait])
    (Except.ok [("TFT14_Bruiser", sampleActivation)])).1

/-- Witness for C3: on the sample trait with levels [2, 4, 6], a count of
1 yields null and a count of 5 yields the level-4 description. -/
theorem getTraitEffect_spec_witness :
    getTraitEffect sampleTraitsState "TFT14_Bruiser" 1 = none ∧
      (getTraitEffect sampleTraitsState "TFT14_Bruiser" 5).map
          (fun e => (e.activeLevel, e.description)) = some (4, "desc4") := by
  have ht : getTrait sampleTraitsState "TFT14_Bruiser" = some sampleTrait := by
    decide
  have ha : getTraitActivation sampleTraitsState "TFT14_Bruiser" =
      some sampleActivation := by
    decide
  constructor
  · exact (getTraitEffect_spec _ _ 1 _ _ ht ha).1 (by decide)
  · exact (getTraitEffect_spec _ _ 5 _ _ ht ha).2 4 (by decide) (by decide)
      (by decide) { tierName := "Silver", description := "desc4" } (by decide)
